import Mathlib

/-!
Shallow embedding of `threatexchange/ncmec/hash_api.py`, the NCMEC hash
sharing XML API client.  Python exceptions are modelled with `Except`:
the spec groups the decode-side exceptions (`IndexError`, `ValueError`,
`AssertionError`) under the single kind `MalformedResponse`, so that is
the error type here, with one constructor per concrete Python exception.
Machine arithmetic is `Int`/`Nat` (Python ints are unbounded).
-/

set_option maxRecDepth 10000

/-- Model of `xml.etree.ElementTree.Element`: tag, attributes, text, children. -/
inductive Element where
  | mk : String → List (String × String) → Option String → List Element → Element

def Element.tag : Element → String
  | .mk t _ _ _ => t

def Element.attrib : Element → List (String × String)
  | .mk _ a _ _ => a

def Element.text : Element → Option String
  | .mk _ _ x _ => x

def Element.children : Element → List Element
  | .mk _ _ _ c => c

/-- Model of `ET.Element.get`: first attribute with the given name, if any. -/
def Element.get (e : Element) (key : String) : Option String :=
  (e.attrib.find? (fun p => p.1 == key)).map (fun p => p.2)

/-- `_DEFAULT_ELE = ET.Element("")` (hash_api.py line 27): the shared sentinel
returned by `maybe` for absent nodes. -/
def _DEFAULT_ELE : Element := .mk "" [] none []

/-- The spec's `MalformedResponse` error kind, refined by which concrete
Python exception the source raises (`IndexError` from `__getitem__`,
`ValueError` from `__getitem__`/`int()`/enum construction/`strptime`,
`AssertionError` from `nullthrows`). -/
inductive MalformedResponse where
  | indexError
  | valueError
  | assertionError
deriving DecidableEq

/-- `nullthrows` (line 32): assert a value is present. -/
def nullthrows {α : Type} : Option α → Except MalformedResponse α
  | some v => .ok v
  | none => .error .assertionError

namespace _XMLWrapper

/-- `_XMLWrapper.__getitem__` (lines 48-55): exactly one child with the tag,
else `IndexError` (zero matches) or `ValueError` (more than one). -/
def getitem (e : Element) (key : String) : Except MalformedResponse Element :=
  match e.children.filter (fun x => x.tag == key) with
  | [] => .error .indexError
  | [c] => .ok c
  | _ :: _ :: _ => .error .valueError

/-- Loop body of `_XMLWrapper.maybe` (lines 57-65): walk `find` steps,
bailing out to the sentinel on the first missing child. -/
def maybeGo : Element → List String → Element
  | curr, [] => curr
  | curr, k :: ks =>
    match curr.children.find? (fun x => x.tag == k) with
    | none => _DEFAULT_ELE
    | some child => maybeGo child ks

/-- `_XMLWrapper.maybe(key, *rest)` (lines 57-65). -/
def maybe (e : Element) (key : String) (rest : List String) : Element :=
  maybeGo e (key :: rest)

/-- `_XMLWrapper.text` property (lines 67-70): assert non-null text. -/
def textP (e : Element) : Except MalformedResponse String :=
  nullthrows e.text

/-- `_XMLWrapper.__bool__` (lines 80-82): false only for the `maybe` sentinel.
The Python code compares by object identity; parsed XML elements always have a
non-empty tag, so structural comparison against `_DEFAULT_ELE` is faithful. -/
def pybool : Element → Bool
  | .mk t a x c => !(t == "" && a.isEmpty && x.isNone && c.isEmpty)

end _XMLWrapper

def natOfDigits (ds : List Char) : Nat :=
  ds.foldl (fun a c => a * 10 + (c.toNat - 48)) 0

/-- Model of Python `int(s)` on canonical decimal strings (optional sign,
digits); anything else raises `ValueError`.  (Python additionally strips
whitespace and allows underscores, which this client's wire format never
produces.) -/
def pyInt (s : String) : Except MalformedResponse Int :=
  match s.toList with
  | '-' :: ds =>
    if ds ≠ [] ∧ ds.all Char.isDigit then .ok (-(natOfDigits ds : Int))
    else .error .valueError
  | ds =>
    if ds ≠ [] ∧ ds.all Char.isDigit then .ok (natOfDigits ds : Int)
    else .error .valueError

namespace _XMLWrapper

/-- `_XMLWrapper.int` (lines 94-96): assert the attribute exists, parse as int. -/
def int (e : Element) (key : String) : Except MalformedResponse Int := do
  let v ← nullthrows (e.get key)
  pyInt v

/-- `_XMLWrapper.str` (lines 98-100): assert the attribute exists. -/
def str (e : Element) (key : String) : Except MalformedResponse String :=
  nullthrows (e.get key)

end _XMLWrapper


/-! ### Date handling

`_DATE_FORMAT_STR = "%Y-%m-%dT%H:%M:%SZ"` (line 26).  The source parses
response timestamps with `datetime.strptime(s, fmt).timestamp()` (lines
157-161) and formats request timestamps with
`datetime.fromtimestamp(ts).strftime(fmt)` (lines 326-328).  `strptime`
yields a naive datetime and `.timestamp()`/`fromtimestamp` interpret naive
values in the process-local timezone, so both conversions depend on the
machine's timezone even though the pattern carries a literal `Z`.  The
embedding makes that dependency explicit as a fixed offset `tz` in seconds
east of UTC (exact for fixed-offset zones; `tz = 0` is UTC). -/

def isLeapYear (y : Int) : Bool :=
  decide (Int.emod y 4 = 0 ∧ (Int.emod y 100 ≠ 0 ∨ Int.emod y 400 = 0))

def daysInMonth (y m : Int) : Int :=
  if m = 2 then (if isLeapYear y then 29 else 28)
  else if m = 4 ∨ m = 6 ∨ m = 9 ∨ m = 11 then 30
  else 31

/-- Days since 1970-01-01 of a proleptic-Gregorian civil date. -/
def daysFromCivil (y m d : Int) : Int :=
  let y2 := if m ≤ 2 then y - 1 else y
  let era := Int.fdiv y2 400
  let yoe := y2 - era * 400
  let mp := Int.emod (m + 9) 12
  let doy := Int.fdiv (153 * mp + 2) 5 + d - 1
  let doe := yoe * 365 + Int.fdiv yoe 4 - Int.fdiv yoe 100 + doy
  era * 146097 + doe - 719468

/-- Civil date of a count of days since 1970-01-01. -/
def civilFromDays (z0 : Int) : Int × Int × Int :=
  let z := z0 + 719468
  let era := Int.fdiv z 146097
  let doe := z - era * 146097
  let yoe := Int.fdiv (doe - Int.fdiv doe 1460 + Int.fdiv doe 36524 - Int.fdiv doe 146096) 365
  let y := yoe + era * 400
  let doy := doe - (365 * yoe + Int.fdiv yoe 4 - Int.fdiv yoe 100)
  let mp := Int.fdiv (5 * doy + 2) 153
  let d := doy - Int.fdiv (153 * mp + 2) 5 + 1
  let m := if mp < 10 then mp + 3 else mp - 9
  (if m ≤ 2 then y + 1 else y, m, d)

def digitVal (c : Char) : Option Nat :=
  if c.isDigit then some (c.toNat - 48) else none

def num2 (a b : Char) : Option Int := do
  let x ← digitVal a
  let y ← digitVal b
  some ((x * 10 + y : Nat) : Int)

def num4 (a b c d : Char) : Option Int := do
  let x ← digitVal a
  let y ← digitVal b
  let z ← digitVal c
  let w ← digitVal d
  some ((x * 1000 + y * 100 + z * 10 + w : Nat) : Int)

/-- Fields accepted by `datetime.strptime(s, "%Y-%m-%dT%H:%M:%SZ")` on the
canonical zero-padded pattern, with the range validation `strptime` and the
`datetime` constructor perform.  (`strptime` also accepts un-padded digit
runs, which this service never emits.) -/
def parseDateFields (s : String) : Option (Int × Int × Int × Int × Int × Int) :=
  match s.toList with
  | [y1, y2, y3, y4, '-', m1, m2, '-', d1, d2, 'T', h1, h2, ':', i1, i2, ':', s1, s2, 'Z'] => do
    let y ← num4 y1 y2 y3 y4
    let mo ← num2 m1 m2
    let d ← num2 d1 d2
    let h ← num2 h1 h2
    let mi ← num2 i1 i2
    let sec ← num2 s1 s2
    if 1 ≤ y ∧ 1 ≤ mo ∧ mo ≤ 12 ∧ 1 ≤ d ∧ d ≤ daysInMonth y mo ∧ h ≤ 23 ∧ mi ≤ 59 ∧ sec ≤ 59 then
      some (y, mo, d, h, mi, sec)
    else none
  | _ => none

/-- `int(datetime.strptime(s, _DATE_FORMAT_STR).timestamp())` (lines 157-161):
parse the pattern, then convert the naive fields to unix seconds using the
process-local timezone offset `tz`. -/
def pyTimestampOf (tz : Int) (s : String) : Except MalformedResponse Int :=
  match parseDateFields s with
  | none => .error .valueError
  | some (y, mo, d, h, mi, sec) =>
    .ok (daysFromCivil y mo d * 86400 + h * 3600 + mi * 60 + sec - tz)

def pad2 (n : Int) : String :=
  if n.toNat < 10 then "0" ++ toString n.toNat else toString n.toNat

def pad4 (n : Int) : String :=
  if n.toNat < 10 then "000" ++ toString n.toNat
  else if n.toNat < 100 then "00" ++ toString n.toNat
  else if n.toNat < 1000 then "0" ++ toString n.toNat
  else toString n.toNat

/-- `_date_format` (lines 326-328):
`datetime.fromtimestamp(timestamp).strftime(_DATE_FORMAT_STR)`.
`fromtimestamp` converts to the process-local timezone (offset `tz`), and the
format string appends a literal `Z` regardless. -/
def _date_format (tz : Int) (timestamp : Int) : String :=
  let t := timestamp + tz
  let days := Int.fdiv t 86400
  let sod := Int.emod t 86400
  let ymd := civilFromDays days
  pad4 ymd.1 ++ "-" ++ pad2 ymd.2.1 ++ "-" ++ pad2 ymd.2.2 ++ "T" ++
    pad2 (Int.fdiv sod 3600) ++ ":" ++ pad2 (Int.emod (Int.fdiv sod 60) 60) ++ ":" ++
    pad2 (Int.emod sod 60) ++ "Z"


/-! ### Domain model and decoders -/

/-- `NCMECEntryType` (lines 109-112): closed enumeration. -/
inductive NCMECEntryType where
  | image
  | video
deriving DecidableEq

/-- The `.value` of the enum member, as in Python. -/
def NCMECEntryType.value : NCMECEntryType → String
  | .image => "image"
  | .video => "video"

/-- `NCMECEntryType(type_str)` enum construction: `ValueError` outside the
closed set. -/
def NCMECEntryType.ofValue : String → Except MalformedResponse NCMECEntryType
  | "image" => .ok .image
  | "video" => .ok .video
  | _ => .error .valueError

/-- `NCMECEntryUpdate` (lines 115-122).  `fingerprints` models the Python
dict as an insertion-ordered association list without duplicate keys. -/
structure NCMECEntryUpdate where
  id : String
  member_id : Int
  entry_type : NCMECEntryType
  deleted : Bool
  classification : Option String
  fingerprints : List (String × String)
deriving DecidableEq

/-- Python dict insertion: overwrite the value in place if the key exists,
else append. -/
def dictInsert (d : List (String × String)) (k v : String) : List (String × String) :=
  if d.any (fun p => p.1 == k) then d.map (fun p => if p.1 == k then (k, v) else p)
  else d ++ [(k, v)]

/-- Build a Python dict from a sequence of key-value pairs in order. -/
def pyDict (ps : List (String × String)) : List (String × String) :=
  ps.foldl (fun d p => dictInsert d p.1 p.2) []

/-- Python dict lookup. -/
def pyLookup (d : List (String × String)) (k : String) : Option String :=
  (d.find? (fun p => p.1 == k)).map (fun p => p.2)

/-- The pair sequence of the comprehension
`{x.tag: x.text for x in xml.maybe("fingerprints")}` (line 137):
each child contributes its tag and asserted-non-null text, in order. -/
def decodeFingerprintPairs : List Element → Except MalformedResponse (List (String × String))
  | [] => .ok []
  | c :: rest => do
    let t ← nullthrows c.text
    let tail ← decodeFingerprintPairs rest
    .ok ((c.tag, t) :: tail)

/-- Python `str.lower()` on the tag names this wire format uses (ASCII). -/
def pyLower (s : String) : String :=
  .mk (s.data.map Char.toLower)

/-- Python `s.startswith(p)`. -/
def pyStartswith (s p : String) : Bool :=
  p.data.isPrefixOf s.data

/-- Python slicing `s[n:]`. -/
def pyDropChars (s : String) (n : Nat) : String :=
  .mk (s.data.drop n)

/-- `NCMECEntryUpdate.from_xml` (lines 124-138). -/
def NCMECEntryUpdate.from_xml (xml : Element) : Except MalformedResponse NCMECEntryUpdate :=
  let type_str0 := pyLower xml.tag
  let deleted := pyStartswith type_str0 "deleted"
  let type_str := if deleted then pyDropChars type_str0 "deleted".length else type_str0
  do
  let idW ← _XMLWrapper.getitem xml "id"
  let idText ← nullthrows idW.text
  let memberW ← _XMLWrapper.getitem xml "member"
  let member_id ← _XMLWrapper.int memberW "id"
  let entry_type ← NCMECEntryType.ofValue type_str
  let pairs ← decodeFingerprintPairs (_XMLWrapper.maybe xml "fingerprints" []).children
  .ok ⟨idText, member_id, entry_type, deleted,
    (_XMLWrapper.maybe xml "classification" []).text, pyDict pairs⟩

/-- `GetEntriesResponse` (lines 141-145). -/
structure GetEntriesResponse where
  updates : List NCMECEntryUpdate
  max_timestamp : Int
  next : String
deriving DecidableEq

/-- One pass of the `updates.extend(...)` loop body (lines 152-163):
decode every child of a content container in order. -/
def decodeUpdates : List Element → Except MalformedResponse (List NCMECEntryUpdate)
  | [] => .ok []
  | c :: rest => do
    let u ← NCMECEntryUpdate.from_xml c
    let us ← decodeUpdates rest
    .ok (u :: us)

/-- One iteration of the `for content_xml in (xml.maybe("images"), xml.maybe("videos"))`
loop (lines 152-163): skip an absent or empty container, otherwise fold the
parsed `maxTimestamp` into the running max and append the decoded children. -/
def processContainer (tz : Int) (acc : List NCMECEntryUpdate × Int) (content_xml : Element) :
    Except MalformedResponse (List NCMECEntryUpdate × Int) :=
  if _XMLWrapper.pybool content_xml = false ∨ content_xml.children.length = 0 then .ok acc
  else do
    let s ← _XMLWrapper.str content_xml "maxTimestamp"
    let ts ← pyTimestampOf tz s
    let ups ← decodeUpdates content_xml.children
    .ok (acc.1 ++ ups, max acc.2 ts)

/-- `GetEntriesResponse.from_xml(xml, fallback_max_time)` (lines 147-166).
`max_ts or fallback_max_time` is Python truthiness: `0` falls back. -/
def GetEntriesResponse.from_xml (tz : Int) (xml : Element) (fallback_max_time : Int) :
    Except MalformedResponse GetEntriesResponse := do
  let acc1 ← processContainer tz ([], 0) (_XMLWrapper.maybe xml "images" [])
  let acc2 ← processContainer tz acc1 (_XMLWrapper.maybe xml "videos" [])
  let next_ := ((_XMLWrapper.maybe xml "paging" ["next"]).text).getD ""
  .ok ⟨acc2.1, if acc2.2 = 0 then fallback_max_time else acc2.2, next_⟩

def sampleEntryChildren : List Element :=
  [.mk "id" [] (some "a1") [], .mk "member" [("id", "7")] none []]


/-! ### Transport: request building and retry policy -/

/-- `NCMECEndpoint` (lines 169-172). -/
inductive NCMECEndpoint where
  | status
  | entries
deriving DecidableEq

def NCMECEndpoint.value : NCMECEndpoint → String
  | .status => "status"
  | .entries => "entries"

namespace NCMECHashAPI

def VERSION : String := "v2"

/-- The URL and query parameters of the GET issued by `NCMECHashAPI._get`
(lines 245-258): a non-empty cursor replaces the versioned endpoint URL and
clears the parameters. -/
structure HttpGet where
  url : String
  params : List (String × String)
deriving DecidableEq

def getRequest (base_url : String) (endpoint : NCMECEndpoint) (next_ : String)
    (params : List (String × String)) : HttpGet :=
  if next_ ≠ "" then ⟨base_url ++ next_, []⟩
  else ⟨base_url ++ "/" ++ VERSION ++ "/" ++ endpoint.value, params⟩

/-- The GET issued by `NCMECHashAPI.get_entries` (lines 290-309): keyword
arguments reach `_get` in the order `to=_date_format(now)`,
`from=_date_format(start_timestamp)`. -/
def get_entries_request (tz : Int) (base_url : String) (start_timestamp : Int)
    (now : Int) (next_ : String) : HttpGet :=
  getRequest base_url .entries next_
    [("to", _date_format tz now), ("from", _date_format tz start_timestamp)]

/-- `Retry` configuration fields used in `_get_session` (lines 230-242);
`backoff_factor=0.2` only shapes sleep times and is not modelled. -/
structure Retry where
  total : Nat
  status_forcelist : List Nat
  allowed_methods : List String
deriving DecidableEq

/-- The retry policy mounted by `_get_session` (lines 233-240). -/
def ncmecRetry : Retry :=
  ⟨4, [429, 500, 502, 503, 504], ["HEAD", "GET", "OPTIONS"]⟩

/-- `TransportError` of the spec: a non-2xx response surfaced to the caller
(`requests.raise_for_status` or retries exhausted), carrying the status. -/
inductive TransportError where
  | httpError (status : Nat)
deriving DecidableEq

def is2xx (status : Nat) : Bool :=
  decide (200 ≤ status ∧ status < 300)

def shouldRetry (cfg : Retry) (method : String) (status : Nat) : Bool :=
  cfg.allowed_methods.contains method && cfg.status_forcelist.contains status

/-- Modelled from the spec: the retry engine of the HTTP stack (urllib3
`Retry`, external to this repository).  `resp k` is the status of the k-th
attempt; a response whose status is in `status_forcelist` is retried only
for methods in `allowed_methods`; `total` counts the retries allowed beyond
the initial attempt (the library documents `total` as "total number of
retries to allow").  Returns the number of attempts made and `.ok status` on
the first 2xx, else the surfaced `TransportError`. -/
def runRetry (cfg : Retry) (method : String) (resp : Nat → Nat) :
    Nat → Nat → Nat × Except TransportError Nat
  | 0, attempt =>
    let status := resp attempt
    if is2xx status then (attempt + 1, .ok status)
    else (attempt + 1, .error (.httpError status))
  | r + 1, attempt =>
    let status := resp attempt
    if is2xx status then (attempt + 1, .ok status)
    else if shouldRetry cfg method status then runRetry cfg method resp r (attempt + 1)
    else (attempt + 1, .error (.httpError status))

/-- A request through the session of `_get_session` with its mounted policy. -/
def requestWithRetries (method : String) (resp : Nat → Nat) :
    Nat × Except TransportError Nat :=
  runRetry ncmecRetry method resp ncmecRetry.total 0

/-! ### Pagination (`get_entries_iter`, lines 311-323)

`get_entries` is abstracted as a function from the cursor to the page the
server returns for it (`start_timestamp` is fixed for the whole iteration).
The `while has_more` loop is modelled with explicit fuel: each unfolding is
one loop iteration, and a run whose trace is unchanged by more fuel has
terminated.  The trace records, for each call, the cursor passed and the
page yielded. -/

def get_entries_iter (get_entries : String → GetEntriesResponse) :
    Nat → String → List (String × GetEntriesResponse)
  | 0, _ => []
  | fuel + 1, next_ =>
    let result := get_entries next_
    (next_, result) ::
      (if result.next = "" then [] else get_entries_iter get_entries fuel result.next)

/-- The page the server returns on the (n+1)-th call when the loop starts
from cursor `c`: the cursor of each later call is the previous page's
`next`. -/
def pageAtFrom (get_entries : String → GetEntriesResponse) : String → Nat → GetEntriesResponse
  | c, 0 => get_entries c
  | c, n + 1 => pageAtFrom get_entries (get_entries c).next n

/-- The cursor passed on the (n+1)-th call when the loop starts from `c`. -/
def cursorAtFrom (get_entries : String → GetEntriesResponse) : String → Nat → String
  | c, 0 => c
  | c, n + 1 => cursorAtFrom get_entries (get_entries c).next n

end NCMECHashAPI

def concatAll {α : Type} (l : List (List α)) : List α :=
  l.foldr (fun a b => a ++ b) []


/-! ### C5: navigator null-safety -/

/-- The chain of `find` steps `maybe` walks, as one optional lookup. -/
def chainFind : Element → List String → Option Element
  | e, [] => some e
  | e, k :: ks =>
    match e.children.find? (fun x => x.tag == k) with
    | none => none
    | some c => chainFind c ks

/-! ### Concrete elements used by witnesses and counterexamples -/

def sampleDeletedImage : Element := .mk "deletedImage" [] none sampleEntryChildren
def sampleVideoNode : Element := .mk "video" [] none sampleEntryChildren
def sampleDeletedVIDEO : Element := .mk "deletedVIDEO" [] none sampleEntryChildren

def dupFpNode : Element :=
  .mk "image" [] none
    [.mk "id" [] (some "a1") [], .mk "member" [("id", "7")] none [],
     .mk "fingerprints" [] none
       [.mk "md5" [] (some "first") [], .mk "md5" [] (some "second") []]]

def nextCursorOf (xml : Element) : String :=
  ((_XMLWrapper.maybe xml "paging" ["next"]).text).getD ""

def epochImagesNode : Element :=
  .mk "root" [] none
    [.mk "images" [("maxTimestamp", "1970-01-01T00:00:00Z")] none
      [.mk "image" [] none sampleEntryChildren]]

def epochVideosNode : Element :=
  .mk "root" [] none
    [.mk "videos" [("maxTimestamp", "1970-01-01T00:00:00Z")] none
      [.mk "video" [] none sampleEntryChildren]]

def videos2021Node : Element :=
  .mk "root" [] none
    [.mk "videos" [("maxTimestamp", "2021-01-01T00:00:00Z")] none
      [.mk "video" [] none sampleEntryChildren]]

def bothContainersNode : Element :=
  .mk "root" [] none
    [.mk "images" [("maxTimestamp", "1970-01-01T00:00:01Z")] none
      [.mk "image" [] none sampleEntryChildren],
     .mk "videos" [("maxTimestamp", "2021-01-01T00:00:00Z")] none
      [.mk "video" [] none sampleEntryChildren]]

def witnessPages : String → GetEntriesResponse :=
  fun c => if c = "" then ⟨[], 5, "?p2"⟩ else ⟨[], 7, ""⟩

/-! ### Sanity evaluations of the embedding -/

example : _XMLWrapper.maybe (.mk "r" [] none []) "a" ["b"] = _DEFAULT_ELE := rfl
example : _XMLWrapper.pybool _DEFAULT_ELE = false := rfl
example : pyInt "42" = .ok 42 := rfl
example : pyInt "-7" = .ok (-7) := rfl
example : pyInt "4a" = .error .valueError := rfl

example : daysFromCivil 1970 1 1 = 0 := by decide
example : daysFromCivil 2021 1 1 = 18628 := by decide
example : civilFromDays 18628 = (2021, 1, 1) := by decide
example : pyTimestampOf 0 "2021-01-01T00:00:00Z" = .ok 1609459200 := rfl
example : pyTimestampOf 0 "1970-01-01T00:00:00Z" = .ok 0 := rfl
example : pyTimestampOf 0 "2021-02-29T00:00:00Z" = .error .valueError := rfl
example : _date_format 0 0 = "1970-01-01T00:00:00Z" := by decide
example : _date_format 3600 0 = "1970-01-01T01:00:00Z" := by decide
example : _date_format 0 1609459200 = "2021-01-01T00:00:00Z" := by decide

example :
    NCMECEntryUpdate.from_xml (.mk "deletedImage" [] none sampleEntryChildren) =
      .ok ⟨"a1", 7, .image, true, none, []⟩ := rfl

example :
    NCMECEntryUpdate.from_xml (.mk "video" [] none sampleEntryChildren) =
      .ok ⟨"a1", 7, .video, false, none, []⟩ := rfl

example :
    NCMECEntryUpdate.from_xml (.mk "deletedVIDEO" [] none sampleEntryChildren) =
      .ok ⟨"a1", 7, .video, true, none, []⟩ := rfl

example :
    NCMECEntryUpdate.from_xml (.mk "audio" [] none sampleEntryChildren) =
      .error .valueError := rfl

example :
    GetEntriesResponse.from_xml 0 (.mk "root" [] none []) 99 = .ok ⟨[], 99, ""⟩ := rfl

example :
    GetEntriesResponse.from_xml 0
      (.mk "root" [] none
        [.mk "videos" [("maxTimestamp", "2021-01-01T00:00:00Z")] none
          [.mk "video" [] none sampleEntryChildren],
         .mk "paging" [] none [.mk "next" [] (some "?cursor=1") []]]) 99 =
      .ok ⟨[⟨"a1", 7, .video, false, none, []⟩], 1609459200, "?cursor=1"⟩ := rfl

example :
    NCMECHashAPI.get_entries_request 0 "https://x/y" 5 10 "" =
      ⟨"https://x/y" ++ "/" ++ "v2" ++ "/" ++ "entries",
       [("to", "1970-01-01T00:00:10Z"), ("from", "1970-01-01T00:00:05Z")]⟩ := rfl

example :
    NCMECHashAPI.get_entries_request 0 "https://x/y" 5 10 "?cur" =
      ⟨"https://x/y" ++ "?cur", []⟩ := rfl

example : NCMECHashAPI.requestWithRetries "POST" (fun _ => 500) =
    (1, .error (.httpError 500)) := rfl

example : NCMECHashAPI.requestWithRetries "GET" (fun _ => 503) =
    (5, .error (.httpError 503)) := rfl

example : NCMECHashAPI.requestWithRetries "GET" (fun k => if k < 2 then 503 else 200) =
    (3, .ok 200) := rfl

theorem maybeGo_eq_chainFind (e : Element) (ks : List String) :
    _XMLWrapper.maybeGo e ks = (chainFind e ks).getD _DEFAULT_ELE := by
  induction ks generalizing e with
  | nil => rfl
  | cons k ks ih =>
    simp only [_XMLWrapper.maybeGo, chainFind]
    cases e.children.find? (fun x => x.tag == k) with
    | none => rfl
    | some c => exact ih c

theorem chainFind_single (e : Element) (k : String) :
    chainFind e [k] = e.children.find? (fun x => x.tag == k) := by
  simp only [chainFind]
  cases e.children.find? (fun x => x.tag == k) <;> rfl

theorem maybe_single (e : Element) (k : String) :
    _XMLWrapper.maybe e k [] =
      (e.children.find? (fun x => x.tag == k)).getD _DEFAULT_ELE := by
  rw [_XMLWrapper.maybe, maybeGo_eq_chainFind, chainFind_single]

/-- C5: `maybe` never fails — it is a total function equal to the optional
chain lookup with the falsy sentinel as default, so a missing step anywhere
in the path yields the sentinel — while `__getitem__` returns a
`MalformedResponse` error unless exactly one matching child exists, `text`
fails when the node has no text, and the attribute accessors `str`/`int`
fail when the attribute is missing. -/
theorem c5_navigator_null_safety :
    (∀ (e : Element) (key : String) (rest : List String),
        _XMLWrapper.maybe e key rest = (chainFind e (key :: rest)).getD _DEFAULT_ELE) ∧
    (∀ (e : Element) (key : String) (rest : List String),
        chainFind e (key :: rest) = none →
          _XMLWrapper.pybool (_XMLWrapper.maybe e key rest) = false) ∧
    (∀ (e : Element) (key : String),
        (∃ c, _XMLWrapper.getitem e key = .ok c) ↔
          (e.children.filter (fun x => x.tag == key)).length = 1) ∧
    (∀ e : Element, _XMLWrapper.textP e = .error .assertionError ↔ e.text = none) ∧
    (∀ (e : Element) (key : String),
        _XMLWrapper.str e key = .error .assertionError ↔ e.get key = none) ∧
    (∀ (e : Element) (key : String),
        e.get key = none → _XMLWrapper.int e key = .error .assertionError) := by
  refine ⟨?_, ?_, ?_, ?_, ?_, ?_⟩
  · intro e key rest
    exact maybeGo_eq_chainFind e (key :: rest)
  · intro e key rest h
    rw [_XMLWrapper.maybe, maybeGo_eq_chainFind, h]
    rfl
  · intro e key
    unfold _XMLWrapper.getitem
    cases hf : e.children.filter (fun x => x.tag == key) with
    | nil => simp
    | cons a tl =>
      cases tl with
      | nil => simp
      | cons b tl2 => simp
  · intro e
    unfold _XMLWrapper.textP nullthrows
    cases e.text <;> simp
  · intro e key
    unfold _XMLWrapper.str nullthrows
    cases e.get key <;> simp
  · intro e key h
    simp [_XMLWrapper.int, h, nullthrows, bind, Except.bind]

/-- Witness for C5 at concrete inputs. -/
theorem c5_navigator_null_safety_witness :
    _XMLWrapper.int (.mk "x" [] none []) "id" = .error .assertionError ∧
    _XMLWrapper.pybool (_XMLWrapper.maybe (.mk "x" [] none []) "a" ["b"]) = false :=
  ⟨c5_navigator_null_safety.2.2.2.2.2 (.mk "x" [] none []) "id" rfl,
   c5_navigator_null_safety.2.1 (.mk "x" [] none []) "a" ["b"] rfl⟩

/-! ### C6: GET request construction -/

/-- C6: with a non-empty cursor the GET goes to the base URL plus the
literal cursor and carries no query parameters at all; with an empty cursor
it goes to the versioned entries endpoint with exactly the parameters
`to=_date_format(now)` and `from=_date_format(start_timestamp)`. -/
theorem c6_get_entries_request (tz : Int) (base_url : String)
    (start_timestamp now : Int) (next_ : String) :
    (next_ ≠ "" →
      NCMECHashAPI.get_entries_request tz base_url start_timestamp now next_ =
        ⟨base_url ++ next_, []⟩) ∧
    (next_ = "" →
      NCMECHashAPI.get_entries_request tz base_url start_timestamp now next_ =
        ⟨base_url ++ "/" ++ NCMECHashAPI.VERSION ++ "/" ++ NCMECEndpoint.value .entries,
         [("to", _date_format tz now), ("from", _date_format tz start_timestamp)]⟩) := by
  constructor
  · intro h
    simp [NCMECHashAPI.get_entries_request, NCMECHashAPI.getRequest, h]
  · intro h
    simp [NCMECHashAPI.get_entries_request, NCMECHashAPI.getRequest, h]

/-- Witness for C6 at concrete inputs (both cursor cases). -/
theorem c6_get_entries_request_witness :
    NCMECHashAPI.get_entries_request 0 "https://base" 5 10 "?cur" =
      ⟨"https://base" ++ "?cur", []⟩ ∧
    NCMECHashAPI.get_entries_request 0 "https://base" 5 10 "" =
      ⟨"https://base" ++ "/" ++ NCMECHashAPI.VERSION ++ "/" ++ NCMECEndpoint.value .entries,
       [("to", _date_format 0 10), ("from", _date_format 0 5)]⟩ :=
  ⟨(c6_get_entries_request 0 "https://base" 5 10 "?cur").1 (by decide),
   (c6_get_entries_request 0 "https://base" 5 10 "").2 rfl⟩

/-! ### C7: date formatting and parsing are local-time, not UTC -/

/-- C7: the claim states `_date_format` and the response-timestamp parse
interpret instants in UTC.  The code instead uses `datetime.fromtimestamp`
and a naive `strptime(...).timestamp()`, both of which apply the
process-local timezone, while the pattern carries a literal `Z`.  Evaluated
at the failing input (timestamp 0, process timezone UTC+1 = offset 3600):
the formatted string and the parsed value are shifted one hour away from
the UTC reading, contradicting the claim and the function's own ISO-8601
docstring; the values at offset 0 show what the claim expected. -/
theorem c7_date_format_uses_local_time :
    _date_format 0 0 = "1970-01-01T00:00:00Z" ∧
    _date_format 3600 0 = "1970-01-01T01:00:00Z" ∧
    _date_format 3600 0 ≠ _date_format 0 0 ∧
    pyTimestampOf 0 "1970-01-01T00:00:00Z" = .ok 0 ∧
    pyTimestampOf 3600 "1970-01-01T00:00:00Z" = .ok (-3600) :=
  ⟨by decide, by decide, by decide, rfl, rfl⟩

/-! ### C8: retry policy -/

theorem runRetry_attempts_le (cfg : NCMECHashAPI.Retry) (method : String)
    (resp : Nat → Nat) : ∀ (r a : Nat),
    (NCMECHashAPI.runRetry cfg method resp r a).1 ≤ a + r + 1 := by
  intro r
  induction r with
  | zero =>
    intro a
    simp only [NCMECHashAPI.runRetry]
    split
    · simp
    · simp
  | succ n ih =>
    intro a
    simp only [NCMECHashAPI.runRetry]
    split
    · simp
    · split
      · exact le_trans (ih (a + 1)) (by omega)
      · simp

theorem runRetry_zero_fail (cfg : NCMECHashAPI.Retry) (method : String)
    (resp : Nat → Nat) (a : Nat) (h2 : NCMECHashAPI.is2xx (resp a) = false) :
    NCMECHashAPI.runRetry cfg method resp 0 a =
      (a + 1, .error (.httpError (resp a))) := by
  simp [NCMECHashAPI.runRetry, h2]

theorem runRetry_no_retry (cfg : NCMECHashAPI.Retry) (method : String)
    (resp : Nat → Nat) (r a : Nat) (h2 : NCMECHashAPI.is2xx (resp a) = false)
    (hr : NCMECHashAPI.shouldRetry cfg method (resp a) = false) :
    NCMECHashAPI.runRetry cfg method resp r a =
      (a + 1, .error (.httpError (resp a))) := by
  cases r with
  | zero => exact runRetry_zero_fail cfg method resp a h2
  | succ n => simp [NCMECHashAPI.runRetry, h2, hr]

theorem runRetry_step (cfg : NCMECHashAPI.Retry) (method : String)
    (resp : Nat → Nat) (r a : Nat) (h2 : NCMECHashAPI.is2xx (resp a) = false)
    (hr : NCMECHashAPI.shouldRetry cfg method (resp a) = true) :
    NCMECHashAPI.runRetry cfg method resp (r + 1) a =
      NCMECHashAPI.runRetry cfg method resp r (a + 1) := by
  simp [NCMECHashAPI.runRetry, h2, hr]

/-- C8 (amended): the mounted retry policy never applies to POST — a POST
whose first response is non-2xx fails immediately on that first attempt
with a `TransportError` — while a GET whose responses all carry forcelist
statuses is retried 4 times, for 5 total attempts (not 4), before the error
is surfaced; no request ever makes more than 5 attempts. -/
theorem c8_post_never_retried :
    (∀ status, NCMECHashAPI.shouldRetry NCMECHashAPI.ncmecRetry "POST" status = false) ∧
    (∀ resp : Nat → Nat, NCMECHashAPI.is2xx (resp 0) = false →
      NCMECHashAPI.requestWithRetries "POST" resp =
        (1, .error (.httpError (resp 0)))) ∧
    (∀ resp : Nat → Nat,
      (∀ k, k < 5 → NCMECHashAPI.is2xx (resp k) = false ∧
        NCMECHashAPI.ncmecRetry.status_forcelist.contains (resp k) = true) →
      NCMECHashAPI.requestWithRetries "GET" resp =
        (5, .error (.httpError (resp 4)))) ∧
    (∀ (method : String) (resp : Nat → Nat),
      (NCMECHashAPI.requestWithRetries method resp).1 ≤ 5) := by
  refine ⟨fun _ => rfl, ?_, ?_, ?_⟩
  · intro resp h2
    exact runRetry_no_retry _ "POST" resp 4 0 h2 rfl
  · intro resp h
    have hs : ∀ k, k < 5 →
        NCMECHashAPI.shouldRetry NCMECHashAPI.ncmecRetry "GET" (resp k) = true := by
      intro k hk
      have := (h k hk).2
      simp only [NCMECHashAPI.shouldRetry, Bool.and_eq_true]
      exact ⟨rfl, this⟩
    show NCMECHashAPI.runRetry NCMECHashAPI.ncmecRetry "GET" resp 4 0 = _
    rw [runRetry_step _ _ _ _ _ (h 0 (by omega)).1 (hs 0 (by omega)),
      runRetry_step _ _ _ _ _ (h 1 (by omega)).1 (hs 1 (by omega)),
      runRetry_step _ _ _ _ _ (h 2 (by omega)).1 (hs 2 (by omega)),
      runRetry_step _ _ _ _ _ (h 3 (by omega)).1 (hs 3 (by omega)),
      runRetry_zero_fail _ _ _ _ (h 4 (by omega)).1]
  · intro method resp
    exact le_trans (runRetry_attempts_le NCMECHashAPI.ncmecRetry method resp 4 0)
      (by omega)

/-- Witness for C8 (amended) at concrete inputs. -/
theorem c8_post_never_retried_witness :
    NCMECHashAPI.shouldRetry NCMECHashAPI.ncmecRetry "POST" 500 = false ∧
    NCMECHashAPI.requestWithRetries "POST" (fun _ => 500) =
      (1, .error (.httpError 500)) ∧
    NCMECHashAPI.requestWithRetries "GET" (fun _ => 503) =
      (5, .error (.httpError 503)) ∧
    (NCMECHashAPI.requestWithRetries "HEAD" (fun _ => 200)).1 ≤ 5 :=
  ⟨c8_post_never_retried.1 500,
   c8_post_never_retried.2.1 (fun _ => 500) rfl,
   c8_post_never_retried.2.2.1 (fun _ => 503) (fun _ _ => ⟨rfl, rfl⟩),
   c8_post_never_retried.2.2.2 "HEAD" (fun _ => 200)⟩

/-- C8 counterexample to the claim as stated: with the policy from the code
(`total=4`), a GET that keeps receiving 503 makes 5 attempts before
failing, so "up to 4 total attempts" is false. -/
theorem c8_counterexample :
    NCMECHashAPI.requestWithRetries "GET" (fun _ => 503) =
      (5, .error (.httpError 503)) ∧
    ¬ (NCMECHashAPI.requestWithRetries "GET" (fun _ => 503)).1 ≤ 4 :=
  ⟨rfl, by decide⟩

/-! ### C1 and C10: entry-update decoding -/

theorem nullthrows_ok {α : Type} {o : Option α} {v : α}
    (h : nullthrows o = .ok v) : o = some v := by
  cases o with
  | none => exact Except.noConfusion h
  | some w =>
    simp only [nullthrows, Except.ok.injEq] at h
    rw [h]

theorem ofValue_ok {s : String} {t : NCMECEntryType}
    (h : NCMECEntryType.ofValue s = .ok t) :
    t.value = s ∧ (s = "image" ∨ s = "video") := by
  unfold NCMECEntryType.ofValue at h
  split at h
  · cases h
    exact ⟨rfl, Or.inl rfl⟩
  · cases h
    exact ⟨rfl, Or.inr rfl⟩
  · exact Except.noConfusion h

/-- What a successful `NCMECEntryUpdate.from_xml` forces: the `deleted` flag
and entry type come from the lower-cased tag, and the fingerprints are the
dict of the decoded pair sequence. -/
theorem from_xml_ok_parts {xml : Element} {u : NCMECEntryUpdate}
    (h : NCMECEntryUpdate.from_xml xml = .ok u) :
    u.deleted = pyStartswith (pyLower xml.tag) "deleted" ∧
    NCMECEntryType.ofValue
        (if pyStartswith (pyLower xml.tag) "deleted"
         then pyDropChars (pyLower xml.tag) "deleted".length
         else pyLower xml.tag) = .ok u.entry_type ∧
    (∃ ps, decodeFingerprintPairs (_XMLWrapper.maybe xml "fingerprints" []).children = .ok ps ∧
      u.fingerprints = pyDict ps) := by
  unfold NCMECEntryUpdate.from_xml at h
  simp only [bind, Except.bind] at h
  split at h
  · exact Except.noConfusion h
  split at h
  · exact Except.noConfusion h
  split at h
  · exact Except.noConfusion h
  split at h
  · exact Except.noConfusion h
  split at h
  · exact Except.noConfusion h
  rename_i et het
  split at h
  · exact Except.noConfusion h
  rename_i ps hps
  cases h
  exact ⟨rfl, het, ps, hps, rfl⟩


/-- C1: for every node, a successfully decoded update has `deleted` true
exactly when the lower-cased tag starts with `deleted`, and its entry type's
value is the suffix after that prefix when present, else the lower-cased tag
itself; a resulting type string outside the closed set makes the decode fail
with a `MalformedResponse` error; and the tags `deletedImage`, `video` and
`deletedVIDEO` decode to (image, deleted), (video, not deleted) and
(video, deleted) respectively. -/
theorem c1_tag_encodes_type_and_deletion :
    (∀ (xml : Element) (u : NCMECEntryUpdate),
        NCMECEntryUpdate.from_xml xml = .ok u →
          u.deleted = pyStartswith (pyLower xml.tag) "deleted" ∧
          u.entry_type.value =
            (if pyStartswith (pyLower xml.tag) "deleted"
             then pyDropChars (pyLower xml.tag) "deleted".length
             else pyLower xml.tag)) ∧
    (∀ xml : Element,
        (if pyStartswith (pyLower xml.tag) "deleted"
         then pyDropChars (pyLower xml.tag) "deleted".length
         else pyLower xml.tag) ≠ "image" →
        (if pyStartswith (pyLower xml.tag) "deleted"
         then pyDropChars (pyLower xml.tag) "deleted".length
         else pyLower xml.tag) ≠ "video" →
        ∀ u, NCMECEntryUpdate.from_xml xml ≠ .ok u) ∧
    NCMECEntryUpdate.from_xml sampleDeletedImage =
      .ok ⟨"a1", 7, .image, true, none, []⟩ ∧
    NCMECEntryUpdate.from_xml sampleVideoNode =
      .ok ⟨"a1", 7, .video, false, none, []⟩ ∧
    NCMECEntryUpdate.from_xml sampleDeletedVIDEO =
      .ok ⟨"a1", 7, .video, true, none, []⟩ := by
  refine ⟨?_, ?_, rfl, rfl, rfl⟩
  · intro xml u h
    obtain ⟨hdel, htyp, -⟩ := from_xml_ok_parts h
    exact ⟨hdel, (ofValue_ok htyp).1⟩
  · intro xml h1 h2 u h
    obtain ⟨-, htyp, -⟩ := from_xml_ok_parts h
    rcases (ofValue_ok htyp).2 with hv | hv
    · exact h1 hv
    · exact h2 hv

/-- Witness for C1's universally quantified parts at concrete inputs. -/
theorem c1_tag_encodes_type_and_deletion_witness :
    ((true : Bool) = pyStartswith (pyLower sampleDeletedImage.tag) "deleted" ∧
      NCMECEntryType.value .image =
        (if pyStartswith (pyLower sampleDeletedImage.tag) "deleted"
         then pyDropChars (pyLower sampleDeletedImage.tag) "deleted".length
         else pyLower sampleDeletedImage.tag)) ∧
    NCMECEntryUpdate.from_xml (.mk "audio" [] none sampleEntryChildren) ≠
      .ok ⟨"a1", 7, .image, false, none, []⟩ :=
  ⟨c1_tag_encodes_type_and_deletion.1 sampleDeletedImage
      ⟨"a1", 7, .image, true, none, []⟩ c1_tag_encodes_type_and_deletion.2.2.1,
   c1_tag_encodes_type_and_deletion.2.1 (.mk "audio" [] none sampleEntryChildren)
      (by decide) (by decide) ⟨"a1", 7, .image, false, none, []⟩⟩

theorem mem_of_getLast?_eq {α : Type} {l : List α} {a : α}
    (h : l.getLast? = some a) : a ∈ l := by
  obtain ⟨hne, rfl⟩ := List.mem_getLast?_eq_getLast (Option.mem_def.mpr h)
  exact List.getLast_mem hne

theorem find?_map_overwrite {d : List (String × String)} {k : String} (v : String)
    (h : d.any (fun p => p.1 == k) = true) :
    (d.map (fun p => if p.1 == k then (k, v) else p)).find? (fun p => p.1 == k) =
      some (k, v) := by
  induction d with
  | nil => simp at h
  | cons p d ih =>
    by_cases hpk : (p.1 == k) = true
    · simp [List.find?, hpk]
    · have h2 : d.any (fun q => q.1 == k) = true := by
        simpa [List.any_cons, hpk] using h
      rw [List.map_cons, if_neg hpk,
        List.find?_cons_of_neg (List.map (fun p => if (p.1 == k) = true then (k, v) else p) d) hpk,
        ih h2]

theorem find?_map_overwrite_other {k k2 : String} (v : String)
    (hne : (k == k2) = false) (d : List (String × String)) :
    (d.map (fun p => if p.1 == k then (k, v) else p)).find? (fun p => p.1 == k2) =
      d.find? (fun p => p.1 == k2) := by
  induction d with
  | nil => rfl
  | cons p d ih =>
    by_cases hpk : (p.1 == k) = true
    · have hp2 : (p.1 == k2) = false := by
        have : p.1 = k := by simpa using hpk
        rw [this]
        exact hne
      simp only [List.map_cons, if_pos hpk, List.find?, hne, hp2]
      exact ih
    · simp only [List.map_cons, if_neg hpk, List.find?]
      cases hq : (p.1 == k2) with
      | true => rfl
      | false => exact ih

theorem pyLookup_dictInsert_self (d : List (String × String)) (k v : String) :
    pyLookup (dictInsert d k v) k = some v := by
  unfold dictInsert pyLookup
  by_cases h : d.any (fun p => p.1 == k) = true
  · rw [if_pos h, find?_map_overwrite v h]
    rfl
  · rw [if_neg h]
    have hnone : d.find? (fun p => p.1 == k) = none := by
      rw [List.find?_eq_none]
      intro p hp hc
      exact h (List.any_eq_true.mpr ⟨p, hp, hc⟩)
    rw [List.find?_append, hnone]
    simp [List.find?]

theorem pyLookup_dictInsert_other {k k2 : String} (d : List (String × String))
    (v : String) (hne : (k == k2) = false) :
    pyLookup (dictInsert d k v) k2 = pyLookup d k2 := by
  unfold dictInsert pyLookup
  by_cases h : d.any (fun p => p.1 == k) = true
  · rw [if_pos h, find?_map_overwrite_other v hne]
  · rw [if_neg h, List.find?_append]
    cases hq : d.find? (fun p => p.1 == k2) with
    | some p => rfl
    | none => simp [List.find?, hne]

/-- Python-dict lookup after building from a pair sequence: the last pair
with the key wins. -/
theorem pyLookup_pyDict (ps : List (String × String)) (k : String) :
    pyLookup (pyDict ps) k =
      ((ps.filter (fun p => p.1 == k)).getLast?).map (fun p => p.2) := by
  induction ps using List.reverseRecOn with
  | nil => rfl
  | append_singleton ps p ih =>
    have hfold : pyDict (ps ++ [p]) = dictInsert (pyDict ps) p.1 p.2 := by
      simp [pyDict, List.foldl_append]
    rw [hfold, List.filter_append]
    by_cases hpk : (p.1 == k) = true
    · have : (p.1 == k) = true := hpk
      have hk : p.1 = k := by simpa using hpk
      rw [hk] at *
      rw [pyLookup_dictInsert_self]
      simp [List.filter, hpk, List.getLast?_concat]
    · have hpk2 : (p.1 == k) = false := by simpa using hpk
      rw [pyLookup_dictInsert_other (pyDict ps) p.2 hpk2]
      simp [List.filter, hpk2, ih]

theorem decodeFingerprintPairs_ok {cs : List Element} {ps : List (String × String)}
    (h : decodeFingerprintPairs cs = .ok ps) :
    ps = cs.map (fun c => (c.tag, c.text.getD "")) ∧ ∀ c ∈ cs, c.text ≠ none := by
  induction cs generalizing ps with
  | nil =>
    simp only [decodeFingerprintPairs, Except.ok.injEq] at h
    subst h
    exact ⟨rfl, by simp⟩
  | cons c rest ih =>
    unfold decodeFingerprintPairs at h
    simp only [bind, Except.bind] at h
    split at h
    · exact Except.noConfusion h
    rename_i t ht
    split at h
    · exact Except.noConfusion h
    rename_i tail htail
    obtain ⟨h1, h2⟩ := ih htail
    simp only [Except.ok.injEq] at h
    subst h
    have htx : c.text = some t := nullthrows_ok ht
    constructor
    · simp [h1, htx]
    · intro x hx
      rcases hx with _ | hx
      · simp [htx]
      · exact h2 x (by assumption)


/-- C10: a successful decode never fails on duplicate fingerprint tags —
the mapping holds, for each algorithm name, the text of the last grandchild
with that tag in document order — and every grandchild of the
`fingerprints` container must have text for the decode to succeed; the
concrete node with two `md5` grandchildren decodes with the second text. -/
theorem c10_fingerprints_last_wins :
    (∀ (xml : Element) (u : NCMECEntryUpdate),
        NCMECEntryUpdate.from_xml xml = .ok u →
          (∀ k, pyLookup u.fingerprints k =
            (((_XMLWrapper.maybe xml "fingerprints" []).children.filter
                (fun c => c.tag == k)).getLast?).bind Element.text) ∧
          (∀ c, c ∈ (_XMLWrapper.maybe xml "fingerprints" []).children →
            c.text ≠ none)) ∧
    NCMECEntryUpdate.from_xml dupFpNode =
      .ok ⟨"a1", 7, .image, false, none, [("md5", "second")]⟩ := by
  constructor
  · intro xml u h
    obtain ⟨-, -, ps, hps, hfp⟩ := from_xml_ok_parts h
    obtain ⟨hmap, htext⟩ := decodeFingerprintPairs_ok hps
    refine ⟨?_, htext⟩
    intro k
    rw [hfp, pyLookup_pyDict, hmap, List.filter_map]
    have hcomp :
        ((fun p => p.1 == k) ∘ fun c : Element => (c.tag, c.text.getD "")) =
          fun c : Element => c.tag == k := rfl
    rw [hcomp, List.getLast?_map]
    cases hlast :
        ((_XMLWrapper.maybe xml "fingerprints" []).children.filter
          (fun c => c.tag == k)).getLast? with
    | none => rfl
    | some c =>
      have hc : c ∈ (_XMLWrapper.maybe xml "fingerprints" []).children :=
        List.mem_of_mem_filter (mem_of_getLast?_eq hlast)
      cases hct : c.text with
      | none => exact absurd hct (htext c hc)
      | some t => simp [hct]
  · rfl

/-- Witness for C10's universally quantified part at a concrete input. -/
theorem c10_fingerprints_last_wins_witness :
    pyLookup ([("md5", "second")] : List (String × String)) "md5" =
      (((_XMLWrapper.maybe dupFpNode "fingerprints" []).children.filter
          (fun c => c.tag == "md5")).getLast?).bind Element.text :=
  ((c10_fingerprints_last_wins.1 dupFpNode
      ⟨"a1", 7, .image, false, none, [("md5", "second")]⟩
      c10_fingerprints_last_wins.2).1) "md5"

/-! ### C3, C4, C9: entries-page decoding -/

theorem processContainer_skip {tz : Int} {acc : List NCMECEntryUpdate × Int}
    {e : Element}
    (h : _XMLWrapper.pybool e = false ∨ e.children.length = 0) :
    processContainer tz acc e = .ok acc := by
  unfold processContainer
  rw [if_pos h]

theorem pybool_of_tag_ne {e : Element} (h : e.tag ≠ "") :
    _XMLWrapper.pybool e = true := by
  cases e with
  | mk t a x c =>
    have ht : t ≠ "" := h
    simp [_XMLWrapper.pybool, ht]

theorem processContainer_run {tz : Int} {acc : List NCMECEntryUpdate × Int}
    {e : Element} {a : String} {ts : Int} {ups : List NCMECEntryUpdate}
    (hb : _XMLWrapper.pybool e = true)
    (hne : e.children ≠ [])
    (ha : _XMLWrapper.str e "maxTimestamp" = .ok a)
    (hts : pyTimestampOf tz a = .ok ts)
    (hu : decodeUpdates e.children = .ok ups) :
    processContainer tz acc e = .ok (acc.1 ++ ups, max acc.2 ts) := by
  unfold processContainer
  rw [if_neg]
  · simp [bind, Except.bind, ha, hts, hu]
  · push_neg
    exact ⟨by simp [hb], by simpa using hne⟩


/-- C3: when neither an `images` nor a `videos` child is present with at
least one element child, the decoded page has an empty update list and
`max_timestamp` equal to the caller-supplied fallback (the cursor is read
from `paging/next` as usual). -/
theorem c3_fallback_when_no_content (tz fallback : Int) (xml : Element)
    (himg : ∀ c, xml.children.find? (fun x => x.tag == "images") = some c →
      c.children = [])
    (hvid : ∀ c, xml.children.find? (fun x => x.tag == "videos") = some c →
      c.children = []) :
    GetEntriesResponse.from_xml tz xml fallback =
      .ok ⟨[], fallback, nextCursorOf xml⟩ := by
  have h1 : processContainer tz ([], 0) (_XMLWrapper.maybe xml "images" []) =
      .ok ([], 0) := by
    cases hf : xml.children.find? (fun x => x.tag == "images") with
    | none =>
      rw [maybe_single, hf]
      exact processContainer_skip (Or.inl rfl)
    | some c =>
      rw [maybe_single, hf]
      exact processContainer_skip (Or.inr (by simp [himg c hf]))
  have h2 : processContainer tz ([], 0) (_XMLWrapper.maybe xml "videos" []) =
      .ok ([], 0) := by
    cases hf : xml.children.find? (fun x => x.tag == "videos") with
    | none =>
      rw [maybe_single, hf]
      exact processContainer_skip (Or.inl rfl)
    | some c =>
      rw [maybe_single, hf]
      exact processContainer_skip (Or.inr (by simp [hvid c hf]))
  unfold GetEntriesResponse.from_xml
  simp only [bind, Except.bind, h1, h2]
  rfl

/-- Witness for C3 at a concrete input: a root whose `images` child is
present but empty and whose `videos` child is absent. -/
theorem c3_fallback_when_no_content_witness :
    GetEntriesResponse.from_xml 0
        (.mk "root" [] none [.mk "images" [("maxTimestamp", "x")] none []]) 77 =
      .ok ⟨[], 77,
        nextCursorOf (.mk "root" [] none [.mk "images" [("maxTimestamp", "x")] none []])⟩ :=
  c3_fallback_when_no_content 0 77
    (.mk "root" [] none [.mk "images" [("maxTimestamp", "x")] none []])
    (fun c hc => by
      simp only [Element.children, List.find?] at hc
      cases hc
      rfl)
    (fun c hc => by
      simp only [Element.children, List.find?] at hc
      exact Option.noConfusion hc)

theorem processContainer_max_ts_zero {tz : Int} {acc r : List NCMECEntryUpdate × Int}
    {e : Element}
    (hacc : acc.2 = 0)
    (hp : processContainer tz acc e = .ok r)
    (hts : ∀ a, _XMLWrapper.str e "maxTimestamp" = .ok a → pyTimestampOf tz a = .ok 0) :
    r.2 = 0 := by
  unfold processContainer at hp
  split at hp
  · cases hp
    exact hacc
  · simp only [bind, Except.bind] at hp
    split at hp
    · exact Except.noConfusion hp
    rename_i a ha
    split at hp
    · exact Except.noConfusion hp
    rename_i ts hts2
    split at hp
    · exact Except.noConfusion hp
    rename_i ups hups
    have h0 : ts = 0 := by
      have := hts a ha
      rw [hts2] at this
      exact (Except.ok.injEq _ _).mp this
    simp only [Except.ok.injEq] at hp
    subst hp
    simp [hacc, h0]

/-- C9: when every present, non-empty content container carries a
`maxTimestamp` attribute that converts to unix time 0, a successful decode
returns `max_timestamp = fallback_max_time`: the truthiness check
`max_ts or fallback_max_time` cannot distinguish an epoch-valued server
timestamp from an absent one. -/
theorem c9_epoch_timestamp_falls_back (tz fallback : Int) (xml : Element)
    (page : GetEntriesResponse)
    (h : GetEntriesResponse.from_xml tz xml fallback = .ok page)
    (himg : ∀ a, _XMLWrapper.str (_XMLWrapper.maybe xml "images" []) "maxTimestamp" = .ok a →
      pyTimestampOf tz a = .ok 0)
    (hvid : ∀ a, _XMLWrapper.str (_XMLWrapper.maybe xml "videos" []) "maxTimestamp" = .ok a →
      pyTimestampOf tz a = .ok 0) :
    page.max_timestamp = fallback := by
  unfold GetEntriesResponse.from_xml at h
  simp only [bind, Except.bind] at h
  split at h
  · exact Except.noConfusion h
  rename_i acc1 h1
  split at h
  · exact Except.noConfusion h
  rename_i acc2 h2
  have ha1 : acc1.2 = 0 := processContainer_max_ts_zero rfl h1 himg
  have ha2 : acc2.2 = 0 := processContainer_max_ts_zero ha1 h2 hvid
  simp only [Except.ok.injEq] at h
  subst h
  simp [ha2]


/-- Witness for C9 at a concrete input: one non-empty `images` container
whose `maxTimestamp` parses to the epoch; the page reports the fallback. -/
theorem c9_epoch_timestamp_falls_back_witness :
    (⟨[⟨"a1", 7, .image, false, none, []⟩], 55, ""⟩ : GetEntriesResponse).max_timestamp = 55 :=
  c9_epoch_timestamp_falls_back 0 55 epochImagesNode
    ⟨[⟨"a1", 7, .image, false, none, []⟩], 55, ""⟩
    rfl
    (fun a ha => by cases ha; rfl)
    (fun a ha => by exact Except.noConfusion ha)


/-- C4 counterexample to the claim as stated: a response with only a
non-empty `videos` container whose `maxTimestamp` is in the required
pattern and converts (at UTC) to unix time 0.  The decode succeeds but
returns the fallback 99, not the converted value 0, because of the
truthiness check `max_ts or fallback_max_time`. -/
theorem c4_counterexample :
    pyTimestampOf 0 "1970-01-01T00:00:00Z" = .ok 0 ∧
    GetEntriesResponse.from_xml 0 epochVideosNode 99 =
      .ok ⟨[⟨"a1", 7, .video, false, none, []⟩], 99, ""⟩ ∧
    (99 : Int) ≠ 0 :=
  ⟨rfl, rfl, by decide⟩

/-- C4 (amended): with no `images` child and a non-empty `videos` container
whose `maxTimestamp` attribute parses — under the process-local timezone
conversion the code uses, which is the UTC conversion when the process
timezone is UTC — to a positive unix time `ts`, the page reports exactly
`ts`, ignoring the fallback; with both containers present and non-empty the
page reports the maximum of the two parsed values when that maximum is
positive. -/
theorem c4_amended_max_timestamp (tz fallback : Int) (xml : Element) :
    (∀ (v : Element) (a : String) (ts : Int) (ups : List NCMECEntryUpdate),
      xml.children.find? (fun x => x.tag == "images") = none →
      xml.children.find? (fun x => x.tag == "videos") = some v →
      v.children ≠ [] →
      _XMLWrapper.str v "maxTimestamp" = .ok a →
      pyTimestampOf tz a = .ok ts →
      0 < ts →
      decodeUpdates v.children = .ok ups →
      GetEntriesResponse.from_xml tz xml fallback = .ok ⟨ups, ts, nextCursorOf xml⟩) ∧
    (∀ (i v : Element) (ai av : String) (ti tv : Int)
        (upsI upsV : List NCMECEntryUpdate),
      xml.children.find? (fun x => x.tag == "images") = some i →
      xml.children.find? (fun x => x.tag == "videos") = some v →
      i.children ≠ [] →
      v.children ≠ [] →
      _XMLWrapper.str i "maxTimestamp" = .ok ai →
      pyTimestampOf tz ai = .ok ti →
      _XMLWrapper.str v "maxTimestamp" = .ok av →
      pyTimestampOf tz av = .ok tv →
      0 < max ti tv →
      decodeUpdates i.children = .ok upsI →
      decodeUpdates v.children = .ok upsV →
      GetEntriesResponse.from_xml tz xml fallback =
        .ok ⟨upsI ++ upsV, max ti tv, nextCursorOf xml⟩) := by
  constructor
  · intro v a ts ups himg hvid hne ha hts hpos hu
    have hvt : v.tag = "videos" := by simpa using List.find?_some hvid
    have hvb : _XMLWrapper.pybool v = true := pybool_of_tag_ne (by simp [hvt])
    have h1 : processContainer tz ([], 0) (_XMLWrapper.maybe xml "images" []) =
        .ok ([], 0) := by
      rw [maybe_single, himg]
      exact processContainer_skip (Or.inl rfl)
    have h2 : processContainer tz ([], 0) (_XMLWrapper.maybe xml "videos" []) =
        .ok (([] : List NCMECEntryUpdate) ++ ups, max 0 ts) := by
      rw [maybe_single, hvid]
      exact processContainer_run hvb hne ha hts hu
    have hmax : max (0 : Int) ts = ts := max_eq_right (le_of_lt hpos)
    have hne0 : ¬ (ts = 0) := by omega
    unfold GetEntriesResponse.from_xml
    simp only [bind, Except.bind, h1, h2]
    simp [hmax, hne0, nextCursorOf]
  · intro i v ai av ti tv upsI upsV himg hvid hnei hnev hai hti hav htv hpos hui huv
    have hit : i.tag = "images" := by simpa using List.find?_some himg
    have hib : _XMLWrapper.pybool i = true := pybool_of_tag_ne (by simp [hit])
    have hvt : v.tag = "videos" := by simpa using List.find?_some hvid
    have hvb : _XMLWrapper.pybool v = true := pybool_of_tag_ne (by simp [hvt])
    have h1 : processContainer tz ([], 0) (_XMLWrapper.maybe xml "images" []) =
        .ok (([] : List NCMECEntryUpdate) ++ upsI, max 0 ti) := by
      rw [maybe_single, himg]
      exact processContainer_run hib hnei hai hti hui
    have h2 : processContainer tz (([] : List NCMECEntryUpdate) ++ upsI, max 0 ti)
        (_XMLWrapper.maybe xml "videos" []) =
        .ok ((([] : List NCMECEntryUpdate) ++ upsI) ++ upsV, max (max 0 ti) tv) := by
      rw [maybe_single, hvid]
      exact processContainer_run hvb hnev hav htv huv
    have hmax : max (max (0 : Int) ti) tv = max ti tv := by
      rw [max_assoc]
      exact max_eq_right (le_of_lt hpos)
    have hne0 : ¬ (max ti tv = 0) := by omega
    unfold GetEntriesResponse.from_xml
    simp only [bind, Except.bind, h1, h2]
    simp [hmax, hne0, nextCursorOf]


/-- Witness for C4 (amended) at concrete inputs, both container cases. -/
theorem c4_amended_max_timestamp_witness :
    GetEntriesResponse.from_xml 0 videos2021Node 99 =
      .ok ⟨[⟨"a1", 7, .video, false, none, []⟩], 1609459200, nextCursorOf videos2021Node⟩ ∧
    GetEntriesResponse.from_xml 0 bothContainersNode 99 =
      .ok ⟨[⟨"a1", 7, .image, false, none, []⟩, ⟨"a1", 7, .video, false, none, []⟩],
        max 1 1609459200, nextCursorOf bothContainersNode⟩ :=
  ⟨(c4_amended_max_timestamp 0 99 videos2021Node).1
      (.mk "videos" [("maxTimestamp", "2021-01-01T00:00:00Z")] none
        [.mk "video" [] none sampleEntryChildren])
      "2021-01-01T00:00:00Z" 1609459200 [⟨"a1", 7, .video, false, none, []⟩]
      rfl rfl (List.cons_ne_nil _ _) rfl rfl (by decide) rfl,
   (c4_amended_max_timestamp 0 99 bothContainersNode).2
      (.mk "images" [("maxTimestamp", "1970-01-01T00:00:01Z")] none
        [.mk "image" [] none sampleEntryChildren])
      (.mk "videos" [("maxTimestamp", "2021-01-01T00:00:00Z")] none
        [.mk "video" [] none sampleEntryChildren])
      "1970-01-01T00:00:01Z" "2021-01-01T00:00:00Z" 1 1609459200
      [⟨"a1", 7, .image, false, none, []⟩] [⟨"a1", 7, .video, false, none, []⟩]
      rfl rfl (List.cons_ne_nil _ _) (List.cons_ne_nil _ _)
      rfl rfl rfl rfl (by decide) rfl rfl⟩

/-! ### C2: pagination -/

theorem cursorAtFrom_succ (f : String → GetEntriesResponse) :
    ∀ (n : Nat) (c : String),
      NCMECHashAPI.cursorAtFrom f c (n + 1) = (NCMECHashAPI.pageAtFrom f c n).next := by
  intro n
  induction n with
  | zero => intro c; rfl
  | succ m ih =>
    intro c
    exact ih (f c).next

theorem pageAtFrom_eq_f_cursor (f : String → GetEntriesResponse) :
    ∀ (n : Nat) (c : String),
      NCMECHashAPI.pageAtFrom f c n = f (NCMECHashAPI.cursorAtFrom f c n) := by
  intro n
  induction n with
  | zero => intro c; rfl
  | succ m ih =>
    intro c
    exact ih (f c).next

theorem get_entries_iter_trace (f : String → GetEntriesResponse) :
    ∀ (n : Nat) (c : String) (fuel : Nat), n + 1 ≤ fuel →
      (∀ i, i + 1 < n + 1 → (NCMECHashAPI.pageAtFrom f c i).next ≠ "") →
      (NCMECHashAPI.pageAtFrom f c n).next = "" →
      NCMECHashAPI.get_entries_iter f fuel c =
        List.ofFn (fun i : Fin (n + 1) =>
          (NCMECHashAPI.cursorAtFrom f c i, NCMECHashAPI.pageAtFrom f c i)) := by
  intro n
  induction n with
  | zero =>
    intro c fuel hfuel hmid hlast
    obtain ⟨m, rfl⟩ : ∃ m, fuel = m + 1 := ⟨fuel - 1, by omega⟩
    simp only [NCMECHashAPI.pageAtFrom] at hlast
    simp only [NCMECHashAPI.get_entries_iter, hlast]
    simp [List.ofFn_succ, NCMECHashAPI.cursorAtFrom, NCMECHashAPI.pageAtFrom]
  | succ m ih =>
    intro c fuel hfuel hmid hlast
    obtain ⟨m2, rfl⟩ : ∃ m2, fuel = m2 + 1 := ⟨fuel - 1, by omega⟩
    have h0 : (f c).next ≠ "" := by
      have := hmid 0 (by omega)
      simpa [NCMECHashAPI.pageAtFrom] using this
    have ih2 := ih (f c).next m2 (by omega)
      (fun i hi => by
        have := hmid (i + 1) (by omega)
        simpa [NCMECHashAPI.pageAtFrom] using this)
      (by simpa [NCMECHashAPI.pageAtFrom] using hlast)
    simp only [NCMECHashAPI.get_entries_iter]
    rw [if_neg h0, ih2]
    conv_rhs => rw [List.ofFn_succ]
    rfl

/-- C2: if page N (1-based) is the first whose `next` cursor is empty, the
iterator makes exactly N calls — the first with the empty cursor, each
later one with the previous page's `next` — yields those N pages in order
and stops (the trace is the same for every fuel bound of at least N), and
the concatenation (hence the total count) of the yielded update lists is
that of the N pages in fetch order. -/
theorem c2_pagination_iterates_until_empty_next
    (f : String → GetEntriesResponse) (N fuel : Nat)
    (hN : 0 < N) (hfuel : N ≤ fuel)
    (hmid : ∀ i, i + 1 < N → (NCMECHashAPI.pageAtFrom f "" i).next ≠ "")
    (hlast : (NCMECHashAPI.pageAtFrom f "" (N - 1)).next = "") :
    NCMECHashAPI.get_entries_iter f fuel "" =
      List.ofFn (fun i : Fin N =>
        (NCMECHashAPI.cursorAtFrom f "" i, NCMECHashAPI.pageAtFrom f "" i)) ∧
    (NCMECHashAPI.get_entries_iter f fuel "").length = N ∧
    NCMECHashAPI.cursorAtFrom f "" 0 = "" ∧
    (∀ i : Nat, NCMECHashAPI.cursorAtFrom f "" (i + 1) =
      (NCMECHashAPI.pageAtFrom f "" i).next) ∧
    (∀ i : Nat, NCMECHashAPI.pageAtFrom f "" i =
      f (NCMECHashAPI.cursorAtFrom f "" i)) ∧
    concatAll ((NCMECHashAPI.get_entries_iter f fuel "").map (fun p => p.2.updates)) =
      concatAll ((List.ofFn (fun i : Fin N => NCMECHashAPI.pageAtFrom f "" i)).map
        (fun pg => pg.updates)) ∧
    ((NCMECHashAPI.get_entries_iter f fuel "").map
        (fun p => p.2.updates.length)).sum =
      ((List.ofFn (fun i : Fin N => NCMECHashAPI.pageAtFrom f "" i)).map
        (fun pg => pg.updates.length)).sum := by
  obtain ⟨n, rfl⟩ : ∃ n, N = n + 1 := ⟨N - 1, by omega⟩
  have htrace := get_entries_iter_trace f n "" fuel hfuel hmid (by simpa using hlast)
  refine ⟨htrace, ?_, rfl, fun i => cursorAtFrom_succ f i "", fun i => pageAtFrom_eq_f_cursor f i "", ?_, ?_⟩
  · rw [htrace, List.length_ofFn]
  · rw [htrace, List.map_ofFn, List.map_ofFn]
    rfl
  · rw [htrace, List.map_ofFn, List.map_ofFn]
    rfl


/-- Witness for C2 at a concrete two-page server. -/
theorem c2_pagination_witness :
    NCMECHashAPI.get_entries_iter witnessPages 2 "" =
      List.ofFn (fun i : Fin 2 =>
        (NCMECHashAPI.cursorAtFrom witnessPages "" i,
         NCMECHashAPI.pageAtFrom witnessPages "" i)) ∧
    (NCMECHashAPI.get_entries_iter witnessPages 2 "").length = 2 :=
  have h := c2_pagination_iterates_until_empty_next witnessPages 2 2 (by omega)
    (by omega)
    (fun i hi => by
      have h0 : i = 0 := by omega
      subst h0
      decide)
    (by decide)
  ⟨h.1, h.2.1⟩
